import Mathlib

/-!
Shallow embedding of src/functions/src/database.ts (transcriber-backend).

The document store (Firestore) is modelled as an association-list state:
transcript documents keyed by their id, and paragraph documents keyed by
the pair (transcriptId, paragraphId), mirroring the paths
transcripts/{id} and transcripts/{id}/paragraphs/{paragraphId}.
Numeric field values (percent, startTime, endTime, audioDuration) are
modelled as Int.  Merge-writes are modelled per leaf field by a
three-valued write (keep / set / delete), matching Firestore set with
merge true where an absent field is untouched, a present field is
overwritten and FieldValue.delete() removes the field.
-/

namespace Transcriber

/-- Modelled from the spec: the progress states of the transcript
lifecycle (spec section 4.3), corresponding to the ProgressType enum of
src/functions/src/enums.ts, a file of this repository that is not
included under src/. -/
inductive ProgressType where
  | Queued
  | Analysing
  | Transcribing
  | Saving
  | Done
  | Error
deriving DecidableEq

/-- Modelled from the spec: a paragraph record (IParagraph of
src/functions/src/interfaces.ts, not included under src/): start and end
times in seconds (numeric values modelled as Int) and the recognized
text payload, opaque to the core. -/
structure IParagraph where
  startTime : Int
  endTime : Int
  text : String
deriving DecidableEq

/-- Modelled from the spec: a transcript document (ITranscript of
src/functions/src/interfaces.ts, not included under src/), with the
nested maps status and metadata flattened to their leaf fields; every
leaf is optional, as in the store.  A stored error record is a plain
list of key/value fields (the result of serializing an error object). -/
structure ITranscript where
  progress : Option ProgressType
  percent : Option Int
  error : Option (List (String × String))
  audioDuration : Option Int
  playbackGsUrl : Option String
deriving DecidableEq

/-- A document that does not exist yet has every field absent. -/
def ITranscript.empty : ITranscript := ⟨none, none, none, none, none⟩

/-- One leaf field of a merge-write: absent from the partial record
(keep), present with a value (set), or Firestore FieldValue.delete()
(del). -/
inductive FieldWrite (α : Type) where
  | keep : FieldWrite α
  | set : α → FieldWrite α
  | del : FieldWrite α
deriving DecidableEq

/-- Effect of one leaf of a merge-write on the stored field. -/
def FieldWrite.apply {α : Type} : FieldWrite α → Option α → Option α
  | FieldWrite.keep, v => v
  | FieldWrite.set a, _ => some a
  | FieldWrite.del, _ => none

/-- A partial ITranscript as passed to updateTranscript: one FieldWrite
per leaf field. -/
structure TranscriptUpdate where
  progress : FieldWrite ProgressType
  percent : FieldWrite Int
  error : FieldWrite (List (String × String))
  audioDuration : FieldWrite Int
  playbackGsUrl : FieldWrite String

/-- The empty partial record: every field is left untouched. -/
def TranscriptUpdate.keepAll : TranscriptUpdate :=
  ⟨FieldWrite.keep, FieldWrite.keep, FieldWrite.keep, FieldWrite.keep, FieldWrite.keep⟩

/-- Merge a partial record into a document, field by field. -/
def applyUpdate (u : TranscriptUpdate) (t : ITranscript) : ITranscript :=
  ⟨u.progress.apply t.progress, u.percent.apply t.percent, u.error.apply t.error,
    u.audioDuration.apply t.audioDuration, u.playbackGsUrl.apply t.playbackGsUrl⟩

/-- The whole document store: transcript documents keyed by id and
paragraph documents keyed by (transcriptId, paragraphId). -/
structure Store where
  transcripts : List (String × ITranscript)
  paragraphs : List ((String × String) × IParagraph)
deriving DecidableEq

/-- Point read in an association list (first binding wins). -/
def assocLookup {κ α : Type} [DecidableEq κ] : List (κ × α) → κ → Option α
  | [], _ => none
  | e :: rest, k => if e.1 = k then some e.2 else assocLookup rest k

/-- Point write in an association list: replace the first binding of the
key, or append a fresh binding when the key is absent.  The new value
may depend on the old one (or on its absence). -/
def assocUpsert {κ α : Type} [DecidableEq κ] (f : Option α → α) : List (κ × α) → κ → List (κ × α)
  | [], k => [(k, f none)]
  | e :: rest, k => if e.1 = k then (k, f (some e.2)) :: rest else e :: assocUpsert f rest k

/-- Point read of a transcript document (db.doc with path transcripts/id). -/
def lookupTranscript (s : Store) (id : String) : Option ITranscript :=
  assocLookup s.transcripts id

/-- Point read of a paragraph document. -/
def lookupParagraph (s : Store) (tid pid : String) : Option IParagraph :=
  assocLookup s.paragraphs (tid, pid)

/-- Embeds updateTranscript: db.doc(transcripts/id).set(partial, merge true).
A set with merge true creates the document when it is absent and merges
the partial record into the existing document otherwise. -/
def updateTranscript (s : Store) (id : String) (u : TranscriptUpdate) : Store :=
  { s with
    transcripts := assocUpsert (fun t => applyUpdate u (t.getD ITranscript.empty))
      s.transcripts id }

/-- Embeds the partial record built by setProgress: always status.progress,
plus percent reset to 0 for Analysing and Saving, FieldValue.delete() on
percent for Done, and percent untouched otherwise. -/
def setProgressUpdate (progress : ProgressType) : TranscriptUpdate :=
  { TranscriptUpdate.keepAll with
    progress := FieldWrite.set progress
    percent :=
      if progress = ProgressType.Analysing ∨ progress = ProgressType.Saving then
        FieldWrite.set 0
      else if progress = ProgressType.Done then FieldWrite.del
      else FieldWrite.keep }

/-- Embeds setProgress of database.ts. -/
def setProgress (s : Store) (id : String) (progress : ProgressType) : Store :=
  updateTranscript s id (setProgressUpdate progress)

/-- Embeds setPercent of database.ts: a merge-write of status.percent only. -/
def setPercent (s : Store) (id : String) (percent : Int) : Store :=
  updateTranscript s id { TranscriptUpdate.keepAll with percent := FieldWrite.set percent }

/-- Embeds the stripping loop of errorOccured: Object.keys(serializedError)
.forEach(key. delete when undefined).  A serialized error object is a
list of fields whose values may be undefined (modelled as none). -/
def stripUndefined (e : List (String × Option String)) : List (String × String) :=
  e.filterMap (fun kv => kv.2.map (fun v => (kv.1, v)))

/-- Embeds errorOccured of database.ts.  The external serialize-error
library has already turned the thrown error into a plain record, which
this function takes as input; it strips undefined-valued fields and
merge-writes the result to status.error. -/
def errorOccured (s : Store) (id : String) (serializedError : List (String × Option String)) : Store :=
  updateTranscript s id
    { TranscriptUpdate.keepAll with error := FieldWrite.set (stripUndefined serializedError) }

/-- One operation of a Firestore WriteBatch, as used by database.ts:
batch.create of a paragraph document, batch.update of status.percent on
a transcript document, and batch.delete of a paragraph document. -/
inductive WriteOp where
  | create : String → String → IParagraph → WriteOp
  | updatePercent : String → Int → WriteOp
  | deleteDoc : String → String → WriteOp

/-- Effect of a single batch operation.  Firestore semantics: create
fails when the document already exists, update fails when the target
document does not exist, delete always succeeds. -/
def applyOp (s : Store) : WriteOp → Option Store
  | WriteOp.create tid pid p =>
    match assocLookup s.paragraphs (tid, pid) with
    | some _ => none
    | none => some { s with paragraphs := s.paragraphs ++ [((tid, pid), p)] }
  | WriteOp.updatePercent tid percent =>
    match assocLookup s.transcripts tid with
    | none => none
    | some _ =>
      some { s with
        transcripts := assocUpsert
          (fun t => { (t.getD ITranscript.empty) with percent := some percent })
          s.transcripts tid }
  | WriteOp.deleteDoc tid pid =>
    some { s with paragraphs := s.paragraphs.filter (fun e => !(decide ((tid, pid) = e.1))) }

/-- Embeds batch.commit: the operations are applied all-or-nothing; when
any operation fails, the result is none and no durable state change
happens (the input store stands). -/
def commitBatch (s : Store) : List WriteOp → Option Store
  | [] => some s
  | op :: ops =>
    match applyOp s op with
    | none => none
    | some s' => commitBatch s' ops

/-- Embeds addParagraph of database.ts: one batch holding the create of
the new paragraph document and the update of status.percent on the
parent transcript.  The store-generated fresh paragraph id
(db.collection(...).doc().id) is passed in explicitly. -/
def addParagraph (s : Store) (tid pid : String) (p : IParagraph) (percent : Int) : Option Store :=
  commitBatch s [WriteOp.create tid pid p, WriteOp.updatePercent tid percent]

/-- The paragraph sub-collection of one transcript. -/
def paragraphsOf (s : Store) (tid : String) : List ((String × String) × IParagraph) :=
  s.paragraphs.filter (fun e => decide (e.1.1 = tid))

/-- Order used by the getParagraphs query: orderBy("startTime"), with the
document name appended by the store as the final tie-breaking sort
criterion (documented Firestore behaviour, spec section 4.1). -/
def paraLe (a b : (String × String) × IParagraph) : Prop :=
  a.2.startTime < b.2.startTime ∨ (a.2.startTime = b.2.startTime ∧ a.1.2 ≤ b.1.2)

instance : DecidableRel paraLe := fun a b =>
  letI : Decidable (a.1.2 ≤ b.1.2) :=
    decidable_of_iff (a.1.2.toList ≤ b.1.2.toList) String.le_iff_toList_le.symm
  inferInstanceAs (Decidable (a.2.startTime < b.2.startTime ∨
    (a.2.startTime = b.2.startTime ∧ a.1.2 ≤ b.1.2)))

/-- Strict version of the query order; it never relates two documents in
either direction when they share startTime and id. -/
def paraLt (a b : (String × String) × IParagraph) : Prop :=
  a.2.startTime < b.2.startTime ∨ (a.2.startTime = b.2.startTime ∧ a.1.2 < b.1.2)

/-- Embeds getParagraphs of database.ts: the ordered query over the
paragraph sub-collection, returning the document data in query order. -/
def getParagraphs (s : Store) (tid : String) : List IParagraph :=
  ((paragraphsOf s tid).insertionSort paraLe).map (fun e => e.2)

/-- Outcome of a JavaScript expression that may throw a TypeError. -/
inductive JsResult (α : Type) where
  | ok : α → JsResult α
  | typeError : JsResult α
deriving DecidableEq

/-- Embeds getProgress of database.ts: doc.get() followed by
(doc.data() as ITranscript).status.progress.  When the document does not
exist, doc.data() is undefined and the dereference .status throws a
TypeError. -/
def getProgress (s : Store) (id : String) : JsResult (Option ProgressType) :=
  match lookupTranscript s id with
  | none => JsResult.typeError
  | some t => JsResult.ok t.progress

/-- Order used by the deletion query: orderBy with the field "__name__",
the document name, which for a paragraph document is its paragraph id. -/
def nameLe (a b : (String × String) × IParagraph) : Prop :=
  a.1.2 ≤ b.1.2

instance : DecidableRel nameLe := fun a b =>
  decidable_of_iff (a.1.2.toList ≤ b.1.2.toList) String.le_iff_toList_le.symm

/-- Embeds query.get() for collectionRef.orderBy("__name__").limit(batchSize):
up to batchSize documents of the collection in document-name order. -/
def querySnapshot (batchSize : Nat) (tid : String)
    (l : List ((String × String) × IParagraph)) : List ((String × String) × IParagraph) :=
  ((l.filter (fun e => decide (e.1.1 = tid))).insertionSort nameLe).take batchSize

/-- Effect on the paragraph documents of committing one delete batch
holding batch.delete(doc.ref) for every snapshot document. -/
def removeSnap (snap l : List ((String × String) × IParagraph)) :
    List ((String × String) × IParagraph) :=
  l.filter (fun e => !(snap.any (fun d => decide (d.1 = e.1))))

/-- A filter that drops an element of the list is strictly shrinking. -/
theorem length_filter_lt_of_mem {α : Type} {p : α → Bool} {a : α} {l : List α}
    (ha : a ∈ l) (hpa : p a = false) : (l.filter p).length < l.length := by
  induction l with
  | nil => cases ha
  | cons x xs ih =>
    rcases List.mem_cons.mp ha with h | h
    · subst h
      simp only [List.filter_cons, hpa, Bool.false_eq_true, if_neg]
      exact Nat.lt_succ_of_le (List.length_filter_le p xs)
    · by_cases hx : p x = true
      · simpa [List.filter_cons, hx] using ih h
      · simp only [List.filter_cons, hx, if_neg]
        exact Nat.lt_succ_of_lt (ih h)

/-- Committing a non-empty delete batch strictly shrinks the paragraph
sub-collection under deletion: the measure justifying termination of
deleteQueryBatch. -/
theorem removeSnap_decrease {b : Nat} {tid : String}
    {l : List ((String × String) × IParagraph)}
    (h : ¬ querySnapshot b tid l = []) :
    ((removeSnap (querySnapshot b tid l) l).filter (fun e => decide (e.1.1 = tid))).length
      < (l.filter (fun e => decide (e.1.1 = tid))).length := by
  obtain ⟨d, hd⟩ := List.exists_mem_of_ne_nil _ h
  have hdl : d ∈ l.filter (fun e => decide (e.1.1 = tid)) := by
    have hsub : d ∈ (l.filter (fun e => decide (e.1.1 = tid))).insertionSort nameLe :=
      (List.take_sublist _ _).subset hd
    exact (List.mem_insertionSort nameLe).mp hsub
  have hcomm : (removeSnap (querySnapshot b tid l) l).filter (fun e => decide (e.1.1 = tid))
      = (l.filter (fun e => decide (e.1.1 = tid))).filter
          (fun e => !((querySnapshot b tid l).any (fun d' => decide (d'.1 = e.1)))) := by
    simp only [removeSnap, List.filter_filter]
    exact List.filter_congr (fun x _ => Bool.and_comm _ _)
  rw [hcomm]
  refine length_filter_lt_of_mem hdl ?_
  have : (querySnapshot b tid l).any (fun d' => decide (d'.1 = d.1)) = true :=
    List.any_eq_true.mpr ⟨d, hd, by simp⟩
  simp [this]

/-- Embeds deleteQueryBatch of database.ts: query one batch; when the
snapshot is empty, resolve; otherwise commit one batch deleting every
snapshot document and re-run on the next tick.  The first component of
the result records the size of each committed delete batch, the second
is the final state of the paragraph documents. -/
def deleteQueryBatch (batchSize : Nat) (tid : String)
    (l : List ((String × String) × IParagraph)) :
    List Nat × List ((String × String) × IParagraph) :=
  if h : querySnapshot batchSize tid l = [] then ([], l)
  else
    ((querySnapshot batchSize tid l).length ::
        (deleteQueryBatch batchSize tid (removeSnap (querySnapshot batchSize tid l) l)).1,
      (deleteQueryBatch batchSize tid (removeSnap (querySnapshot batchSize tid l) l)).2)
termination_by (l.filter (fun e => decide (e.1.1 = tid))).length
decreasing_by
  all_goals exact removeSnap_decrease h

/-- Embeds deleteCollection of database.ts applied to the paragraph
sub-collection transcripts/tid/paragraphs (the only collection the
repository deletes): run the batched deletion loop on the store. -/
def deleteCollection (s : Store) (tid : String) (batchSize : Nat) : List Nat × Store :=
  ((deleteQueryBatch batchSize tid s.paragraphs).1,
    { s with paragraphs := (deleteQueryBatch batchSize tid s.paragraphs).2 })

/-- Embeds deleteTranscript of database.ts: first await
deleteCollection on the paragraphs path with batch size 10, then delete
the root transcript document. -/
def deleteTranscript (s : Store) (tid : String) : Store :=
  { (deleteCollection s tid 10).2 with
    transcripts := ((deleteCollection s tid 10).2).transcripts.filter
      (fun e => !(decide (e.1 = tid))) }

/-! Helper lemmas about the store primitives. -/

theorem FieldWrite.apply_apply {α : Type} (w : FieldWrite α) (v : Option α) :
    w.apply (w.apply v) = w.apply v := by
  cases w <;> rfl

theorem applyUpdate_applyUpdate (u : TranscriptUpdate) (t : ITranscript) :
    applyUpdate u (applyUpdate u t) = applyUpdate u t := by
  simp [applyUpdate, FieldWrite.apply_apply]

theorem assocLookup_upsert_self {κ α : Type} [DecidableEq κ] (f : Option α → α)
    (l : List (κ × α)) (k : κ) :
    assocLookup (assocUpsert f l k) k = some (f (assocLookup l k)) := by
  induction l with
  | nil => simp [assocUpsert, assocLookup]
  | cons e rest ih =>
    by_cases h : e.1 = k
    · simp [assocUpsert, assocLookup, h]
    · simp [assocUpsert, assocLookup, h, ih]

theorem assocLookup_upsert_ne {κ α : Type} [DecidableEq κ] (f : Option α → α)
    (l : List (κ × α)) {k k' : κ} (h : k' ≠ k) :
    assocLookup (assocUpsert f l k) k' = assocLookup l k' := by
  have hk : k ≠ k' := Ne.symm h
  induction l with
  | nil => simp [assocUpsert, assocLookup, hk]
  | cons e rest ih =>
    by_cases he : e.1 = k
    · simp [assocUpsert, assocLookup, he, hk]
    · simp only [assocUpsert, if_neg he]
      by_cases hk' : e.1 = k'
      · simp [assocLookup, hk']
      · simp [assocLookup, hk', ih]

theorem assocUpsert_upsert_self {κ α : Type} [DecidableEq κ] (f g : Option α → α)
    (l : List (κ × α)) (k : κ) :
    assocUpsert f (assocUpsert g l k) k = assocUpsert (fun v => f (some (g v))) l k := by
  induction l with
  | nil => simp [assocUpsert]
  | cons e rest ih =>
    by_cases h : e.1 = k
    · simp [assocUpsert, h]
    · simp [assocUpsert, h, ih]

theorem assocLookup_append_self {κ α : Type} [DecidableEq κ] {l : List (κ × α)} {k : κ}
    (h : assocLookup l k = none) (v : α) :
    assocLookup (l ++ [(k, v)]) k = some v := by
  induction l with
  | nil => simp [assocLookup]
  | cons e rest ih =>
    by_cases he : e.1 = k
    · simp [assocLookup, he] at h
    · simp only [assocLookup, if_neg he] at h
      simpa [assocLookup, he] using ih h

theorem assocLookup_append_ne {κ α : Type} [DecidableEq κ] (l : List (κ × α)) {k k' : κ}
    (h : k' ≠ k) (v : α) :
    assocLookup (l ++ [(k, v)]) k' = assocLookup l k' := by
  have hk : k ≠ k' := Ne.symm h
  induction l with
  | nil => simp [assocLookup, hk]
  | cons e rest ih =>
    by_cases he : e.1 = k'
    · simp [assocLookup, he]
    · simp [assocLookup, he, ih]

theorem lookupTranscript_updateTranscript_self (s : Store) (id : String) (u : TranscriptUpdate) :
    lookupTranscript (updateTranscript s id u) id
      = some (applyUpdate u ((lookupTranscript s id).getD ITranscript.empty)) := by
  simp [lookupTranscript, updateTranscript, assocLookup_upsert_self]

theorem lookupTranscript_updateTranscript_ne (s : Store) {id id' : String}
    (u : TranscriptUpdate) (h : id' ≠ id) :
    lookupTranscript (updateTranscript s id u) id' = lookupTranscript s id' := by
  simp [lookupTranscript, updateTranscript, assocLookup_upsert_ne _ _ h]

theorem updateTranscript_paragraphs (s : Store) (id : String) (u : TranscriptUpdate) :
    (updateTranscript s id u).paragraphs = s.paragraphs := rfl

/-! Helper lemmas about the deletion loop. -/

theorem deleteQueryBatch_of_empty (b : Nat) (tid : String)
    (l : List ((String × String) × IParagraph)) (h : querySnapshot b tid l = []) :
    deleteQueryBatch b tid l = ([], l) := by
  rw [deleteQueryBatch.eq_def]
  exact dif_pos h

theorem deleteQueryBatch_of_nonempty (b : Nat) (tid : String)
    (l : List ((String × String) × IParagraph)) (h : ¬ querySnapshot b tid l = []) :
    deleteQueryBatch b tid l =
      ((querySnapshot b tid l).length ::
          (deleteQueryBatch b tid (removeSnap (querySnapshot b tid l) l)).1,
        (deleteQueryBatch b tid (removeSnap (querySnapshot b tid l) l)).2) := by
  conv_lhs => rw [deleteQueryBatch.eq_def]
  exact dif_neg h

theorem querySnapshot_eq_nil_iff {b : Nat} (hb : 0 < b) (tid : String)
    (l : List ((String × String) × IParagraph)) :
    querySnapshot b tid l = [] ↔ l.filter (fun e => decide (e.1.1 = tid)) = [] := by
  unfold querySnapshot
  constructor
  · intro h
    rcases List.take_eq_nil_iff.mp h with h' | h'
    · omega
    · have hp := List.perm_insertionSort nameLe (l.filter (fun e => decide (e.1.1 = tid)))
      rw [h'] at hp
      exact List.length_eq_zero.mp hp.length_eq.symm
  · intro h
    rw [h]
    simp [List.insertionSort]

theorem deleteQueryBatch_clears {b : Nat} (hb : 0 < b) (tid : String) :
    ∀ (n : Nat) (l : List ((String × String) × IParagraph)),
      (l.filter (fun e => decide (e.1.1 = tid))).length ≤ n →
      (deleteQueryBatch b tid l).2.filter (fun e => decide (e.1.1 = tid)) = [] := by
  intro n
  induction n with
  | zero =>
    intro l hl
    have hf : l.filter (fun e => decide (e.1.1 = tid)) = [] :=
      List.length_eq_zero.mp (Nat.le_zero.mp hl)
    rw [deleteQueryBatch_of_empty _ _ _ ((querySnapshot_eq_nil_iff hb tid l).mpr hf)]
    exact hf
  | succ n ih =>
    intro l hl
    by_cases h : querySnapshot b tid l = []
    · rw [deleteQueryBatch_of_empty _ _ _ h]
      exact (querySnapshot_eq_nil_iff hb tid l).mp h
    · rw [deleteQueryBatch_of_nonempty _ _ _ h]
      exact ih _ (by have := removeSnap_decrease h; omega)

/-- Effect on the paragraph list of one batch.delete operation, as a
filter, commutes into removeSnap of a one-longer snapshot. -/
theorem removeSnap_cons (d : (String × String) × IParagraph)
    (snap l : List ((String × String) × IParagraph)) :
    removeSnap snap (l.filter (fun e => !(decide ((d.1.1, d.1.2) = e.1)))) = removeSnap (d :: snap) l := by
  unfold removeSnap
  rw [List.filter_filter]
  refine List.filter_congr (fun e _ => ?_)
  simp [List.any_cons, Bool.not_or, Prod.mk.eta, Bool.and_comm]

/-- Committing one batch that deletes every snapshot document has exactly
the removeSnap effect on the paragraph documents and touches nothing
else; a batch of deletes always commits. -/
theorem commitBatch_deleteDocs (snap : List ((String × String) × IParagraph)) :
    ∀ s : Store, commitBatch s (snap.map (fun d => WriteOp.deleteDoc d.1.1 d.1.2))
      = some { s with paragraphs := removeSnap snap s.paragraphs } := by
  induction snap with
  | nil =>
    intro s
    simp [commitBatch, removeSnap]
  | cons d rest ih =>
    intro s
    simp only [List.map_cons, commitBatch, applyOp]
    rw [ih]
    congr 1
    simp only
    rw [removeSnap_cons]

/-- Deleting the first binding of a key by filtering makes the key
unresolvable. -/
theorem assocLookup_filter_self {κ α : Type} [DecidableEq κ] (l : List (κ × α)) (k : κ) :
    assocLookup (l.filter (fun e => !(decide (e.1 = k)))) k = none := by
  induction l with
  | nil => rfl
  | cons e rest ih =>
    by_cases h : e.1 = k
    · simpa [List.filter_cons, h] using ih
    · simp [List.filter_cons, h, assocLookup, ih]

theorem length_filter_partition {α : Type} (p : α → Bool) (l : List α) :
    (l.filter p).length + (l.filter (fun a => !(p a))).length = l.length := by
  induction l with
  | nil => rfl
  | cons x xs ih =>
    by_cases h : p x = true <;> simp [List.filter_cons, h] <;> omega

/-- With unique document keys, one delete batch removes at most
batchSize documents from the collection. -/
theorem removeSnap_count {b : Nat} {tid : String}
    {l : List ((String × String) × IParagraph)} (hnd : (l.map Prod.fst).Nodup) :
    (l.filter (fun e => decide (e.1.1 = tid))).length
      - ((removeSnap (querySnapshot b tid l) l).filter (fun e => decide (e.1.1 = tid))).length
      ≤ b := by
  set A := l.filter (fun e => decide (e.1.1 = tid)) with hA
  set p : ((String × String) × IParagraph) → Bool :=
    fun e => (querySnapshot b tid l).any (fun d' => decide (d'.1 = e.1)) with hp
  have hcomm : (removeSnap (querySnapshot b tid l) l).filter (fun e => decide (e.1.1 = tid))
      = A.filter (fun e => !(p e)) := by
    rw [hA, hp]
    simp only [removeSnap, List.filter_filter]
    exact List.filter_congr (fun x _ => Bool.and_comm _ _)
  rw [hcomm]
  have hpart : (A.filter p).length + (A.filter (fun e => !(p e))).length = A.length :=
    length_filter_partition p A
  have hcount : (A.filter p).length ≤ b := by
    have hsub : (A.filter p).Sublist l :=
      (List.filter_sublist _).trans (by rw [hA]; exact List.filter_sublist _)
    have hnd' : ((A.filter p).map Prod.fst).Nodup :=
      List.Nodup.sublist (hsub.map Prod.fst) hnd
    have hsubset : ((A.filter p).map Prod.fst) ⊆ ((querySnapshot b tid l).map Prod.fst) := by
      intro x hx
      rcases List.mem_map.mp hx with ⟨e, he, hex⟩
      have hany : p e = true := List.of_mem_filter he
      rw [hp] at hany
      rcases List.any_eq_true.mp hany with ⟨d', hd', hde⟩
      have hd'e : d'.1 = e.1 := of_decide_eq_true hde
      exact List.mem_map.mpr ⟨d', hd', by rw [hd'e, hex]⟩
    have hle := (List.Nodup.subperm hnd' hsubset).length_le
    have hsnap : (querySnapshot b tid l).length ≤ b := List.length_take_le _ _
    simp only [List.length_map] at hle
    omega
  omega

/-! Order-theoretic facts about the query orders. -/

instance : IsTotal ((String × String) × IParagraph) paraLe :=
  ⟨fun a b => by
    unfold paraLe
    rcases lt_trichotomy a.2.startTime b.2.startTime with h | h | h
    · exact Or.inl (Or.inl h)
    · rcases le_total a.1.2 b.1.2 with hs | hs
      · exact Or.inl (Or.inr ⟨h, hs⟩)
      · exact Or.inr (Or.inr ⟨h.symm, hs⟩)
    · exact Or.inr (Or.inl h)⟩

instance : IsTrans ((String × String) × IParagraph) paraLe :=
  ⟨fun a b c hab hbc => by
    unfold paraLe at hab hbc ⊢
    rcases hab with h1 | ⟨h1, h1'⟩ <;> rcases hbc with h2 | ⟨h2, h2'⟩
    · exact Or.inl (by omega)
    · exact Or.inl (by omega)
    · exact Or.inl (by omega)
    · exact Or.inr ⟨by omega, h1'.trans h2'⟩⟩

instance : IsAntisymm ((String × String) × IParagraph) paraLt :=
  ⟨fun a b hab hba => by
    exfalso
    unfold paraLt at hab hba
    rcases hab with h1 | ⟨h1, h1'⟩ <;> rcases hba with h2 | ⟨h2, h2'⟩
    · omega
    · omega
    · omega
    · exact lt_asymm h1' h2'⟩

theorem paraLt_of_paraLe_ne {a b : (String × String) × IParagraph}
    (hle : paraLe a b) (hne : a.1.2 ≠ b.1.2) : paraLt a b := by
  rcases hle with h | ⟨h, h'⟩
  · exact Or.inl h
  · exact Or.inr ⟨h, lt_of_le_of_ne h' hne⟩

theorem paraLt_startTime_le {a b : (String × String) × IParagraph} (h : paraLt a b) :
    a.2.startTime ≤ b.2.startTime := by
  rcases h with h | ⟨h, _⟩ <;> omega

/-- Applying the same merge-update twice collapses to applying it once. -/
theorem updateTranscript_idem (s : Store) (id : String) (u : TranscriptUpdate) :
    updateTranscript (updateTranscript s id u) id u = updateTranscript s id u := by
  unfold updateTranscript
  simp only
  congr 1
  rw [assocUpsert_upsert_self]
  congr 1
  funext v
  simp only [Option.getD_some]
  exact applyUpdate_applyUpdate u _

/-- Case analysis of addParagraph: the batch fails on a paragraph-id
collision or on a missing parent transcript, and otherwise applies both
staged writes. -/
theorem addParagraph_eq (s : Store) (tid pid : String) (p : IParagraph) (percent : Int) :
    addParagraph s tid pid p percent =
      match assocLookup s.paragraphs (tid, pid), assocLookup s.transcripts tid with
      | some _, _ => none
      | none, none => none
      | none, some _ =>
        some ⟨assocUpsert (fun t => { (t.getD ITranscript.empty) with percent := some percent })
            s.transcripts tid,
          s.paragraphs ++ [((tid, pid), p)]⟩ := by
  unfold addParagraph commitBatch applyOp
  cases hc : assocLookup s.paragraphs (tid, pid) <;>
    cases ht : assocLookup s.transcripts tid <;>
      simp [commitBatch, applyOp, hc, ht]

/-! Example documents used to exercise the definitions at concrete inputs. -/

/-- Paragraph with the given start time (end time one second later). -/
def examplePara (n : Int) (txt : String) : IParagraph := ⟨n, n + 1, txt⟩

/-- Five-document paragraph collection of the spec's deleteCollection
example, stored in scrambled order under transcript "t". -/
def exampleParagraphs : List ((String × String) × IParagraph) :=
  [(("t", "c"), examplePara 3 "pc"), (("t", "a"), examplePara 1 "pa"),
   (("t", "e"), examplePara 5 "pe"), (("t", "b"), examplePara 2 "pb"),
   (("t", "d"), examplePara 4 "pd")]

/-- The same five documents inserted in a different order. -/
def exampleParagraphsShuffled : List ((String × String) × IParagraph) :=
  [(("t", "e"), examplePara 5 "pe"), (("t", "b"), examplePara 2 "pb"),
   (("t", "a"), examplePara 1 "pa"), (("t", "d"), examplePara 4 "pd"),
   (("t", "c"), examplePara 3 "pc")]

def exampleStore : Store := ⟨[("t", ITranscript.empty)], exampleParagraphs⟩

def exampleStoreShuffled : Store := ⟨[("t", ITranscript.empty)], exampleParagraphsShuffled⟩

/-- Collection state after the first delete batch of the example run. -/
def exampleRest1 : List ((String × String) × IParagraph) :=
  [(("t", "c"), examplePara 3 "pc"), (("t", "e"), examplePara 5 "pe"),
   (("t", "d"), examplePara 4 "pd")]

/-- Collection state after the second delete batch of the example run. -/
def exampleRest2 : List ((String × String) × IParagraph) :=
  [(("t", "e"), examplePara 5 "pe")]

/-! Claim theorems. -/

/-- Claim C1: for every transcript id and progress state, setProgress
writes status.progress = newState; for Analysing and Saving it also
resets status.percent to 0; for Done it removes status.percent entirely;
for every other state it leaves status.percent untouched; and, being a
merge-write, it leaves status.error, metadata.audioDuration,
playbackGsUrl, every other transcript document and every paragraph
document unchanged. -/
theorem setProgress_correct (s : Store) (id : String) (p : ProgressType) :
    ∃ t, lookupTranscript (setProgress s id p) id = some t ∧
      t.progress = some p ∧
      ((p = ProgressType.Analysing ∨ p = ProgressType.Saving) → t.percent = some 0) ∧
      (p = ProgressType.Done → t.percent = none) ∧
      (p ≠ ProgressType.Analysing → p ≠ ProgressType.Saving → p ≠ ProgressType.Done →
        t.percent = ((lookupTranscript s id).getD ITranscript.empty).percent) ∧
      t.error = ((lookupTranscript s id).getD ITranscript.empty).error ∧
      t.audioDuration = ((lookupTranscript s id).getD ITranscript.empty).audioDuration ∧
      t.playbackGsUrl = ((lookupTranscript s id).getD ITranscript.empty).playbackGsUrl ∧
      (∀ id', id' ≠ id → lookupTranscript (setProgress s id p) id' = lookupTranscript s id') ∧
      (setProgress s id p).paragraphs = s.paragraphs := by
  refine ⟨applyUpdate (setProgressUpdate p) ((lookupTranscript s id).getD ITranscript.empty),
    lookupTranscript_updateTranscript_self s id _, rfl, ?_, ?_, ?_, rfl, rfl, rfl,
    fun id' h => lookupTranscript_updateTranscript_ne s _ h, rfl⟩
  · intro h
    rcases h with h | h <;> subst h <;> rfl
  · intro h
    subst h
    rfl
  · intro h1 h2 h3
    show (setProgressUpdate p).percent.apply _ = _
    simp [setProgressUpdate, h1, h2, h3, FieldWrite.apply]

/-- Witness for C1 at concrete inputs: the Done transition on a store
holding one transcript with percent set removes the percent field. -/
theorem setProgress_correct_witness :
    ∃ t, lookupTranscript
        (setProgress ⟨[("t", ⟨some ProgressType.Saving, some 80, none, none, none⟩)], []⟩
          "t" ProgressType.Done) "t" = some t ∧
      t.progress = some ProgressType.Done ∧ t.percent = none := by
  obtain ⟨t, h1, h2, _, h4, _⟩ :=
    setProgress_correct ⟨[("t", ⟨some ProgressType.Saving, some 80, none, none, none⟩)], []⟩
      "t" ProgressType.Done
  exact ⟨t, h1, h2, h4 rfl⟩

/-- Claim C2: addParagraph commits the paragraph creation and the update
of the parent's status.percent as one atomic batch: either the batch
fails and no durable state change is produced (the result is none and
the prior store stands), or both writes are applied together; no
reachable result has one write applied without the other, and all other
documents and fields are untouched. -/
theorem addParagraph_atomic (s : Store) (tid pid : String) (p : IParagraph) (percent : Int) :
    addParagraph s tid pid p percent = none ∨
    (∃ s', addParagraph s tid pid p percent = some s' ∧
      lookupParagraph s' tid pid = some p ∧
      (∃ t', lookupTranscript s' tid = some t' ∧ t'.percent = some percent) ∧
      (∀ t, lookupTranscript s tid = some t →
        lookupTranscript s' tid = some { t with percent := some percent }) ∧
      (∀ tid' pid', (tid', pid') ≠ (tid, pid) →
        lookupParagraph s' tid' pid' = lookupParagraph s tid' pid') ∧
      (∀ id', id' ≠ tid → lookupTranscript s' id' = lookupTranscript s id')) := by
  rw [addParagraph_eq]
  cases hc : assocLookup s.paragraphs (tid, pid) with
  | some q => exact Or.inl rfl
  | none =>
    cases ht : assocLookup s.transcripts tid with
    | none => exact Or.inl rfl
    | some t0 =>
      refine Or.inr ⟨_, rfl, ?_, ?_, ?_, ?_, ?_⟩
      · exact assocLookup_append_self hc p
      · refine ⟨{ t0 with percent := some percent }, ?_, rfl⟩
        show assocLookup (assocUpsert _ s.transcripts tid) tid = _
        rw [assocLookup_upsert_self, ht]
        rfl
      · intro t ht'
        have ht'' : assocLookup s.transcripts tid = some t := ht'
        show assocLookup (assocUpsert _ s.transcripts tid) tid = _
        rw [assocLookup_upsert_self, ht'']
        rfl
      · intro tid' pid' h
        exact assocLookup_append_ne s.paragraphs h p
      · intro id' h
        exact assocLookup_upsert_ne _ s.transcripts h

/-- Witness for C2 at concrete inputs: on a store holding the parent
transcript, the batch commits and both writes land. -/
theorem addParagraph_atomic_witness :
    ∃ s', addParagraph ⟨[("t", ITranscript.empty)], []⟩ "t" "p1" (examplePara 1 "x") 42
        = some s' ∧
      lookupParagraph s' "t" "p1" = some (examplePara 1 "x") ∧
      ∃ t', lookupTranscript s' "t" = some t' ∧ t'.percent = some 42 := by
  rcases addParagraph_atomic ⟨[("t", ITranscript.empty)], []⟩ "t" "p1" (examplePara 1 "x") 42
    with h | ⟨s', h1, h2, h3, _⟩
  · exact absurd h (by decide)
  · exact ⟨s', h1, h2, h3⟩

/-- Claim C8: setPercent is idempotent: issuing the same percent
merge-write twice in a row leaves exactly the store produced by issuing
it once. -/
theorem setPercent_idempotent (s : Store) (id : String) (percent : Int) :
    setPercent (setPercent s id percent) id percent = setPercent s id percent :=
  updateTranscript_idem s id _

/-- Claim C9: a batch whose update op targets a missing parent
transcript is rejected as a whole, so addParagraph on a nonexistent
transcript id creates no paragraph document; consequently, on success
the parent exists, and the ownership invariant that every paragraph
document has an existing parent transcript is preserved. -/
theorem addParagraph_requires_parent (s : Store) (tid pid : String) (p : IParagraph)
    (percent : Int) :
    (lookupTranscript s tid = none → addParagraph s tid pid p percent = none) ∧
    (∀ s', addParagraph s tid pid p percent = some s' →
      (∃ t, lookupTranscript s' tid = some t) ∧
      ((∀ k, k ∈ s.paragraphs → lookupTranscript s k.1.1 ≠ none) →
        ∀ k, k ∈ s'.paragraphs → lookupTranscript s' k.1.1 ≠ none)) := by
  constructor
  · intro h
    rw [addParagraph_eq]
    cases hc : assocLookup s.paragraphs (tid, pid) with
    | some q => rfl
    | none =>
      rw [show assocLookup s.transcripts tid = none from h]
  · intro s' hs'
    rw [addParagraph_eq] at hs'
    cases hc : assocLookup s.paragraphs (tid, pid) with
    | some q => rw [hc] at hs'; cases hs'
    | none =>
      rw [hc] at hs'
      cases ht : assocLookup s.transcripts tid with
      | none => rw [ht] at hs'; cases hs'
      | some t0 =>
        rw [ht] at hs'
        cases hs'
        constructor
        · refine ⟨{ ((some t0).getD ITranscript.empty) with percent := some percent }, ?_⟩
          show assocLookup (assocUpsert _ s.transcripts tid) tid = _
          rw [assocLookup_upsert_self, ht]
        · intro hinv k hk
          rcases List.mem_append.mp hk with hk | hk
          · by_cases hkt : k.1.1 = tid
            · rw [hkt]
              show assocLookup (assocUpsert _ s.transcripts tid) tid ≠ none
              rw [assocLookup_upsert_self]
              exact fun hx => Option.noConfusion hx
            · show assocLookup (assocUpsert _ s.transcripts tid) k.1.1 ≠ none
              rw [assocLookup_upsert_ne _ _ hkt]
              exact hinv k hk
          · rcases List.mem_singleton.mp hk with hk'
            rw [hk']
            show assocLookup (assocUpsert _ s.transcripts tid) tid ≠ none
            rw [assocLookup_upsert_self]
            exact fun hx => Option.noConfusion hx

/-- Witness for C9 at concrete inputs: on the empty store the whole
batch fails and no paragraph is created. -/
theorem addParagraph_requires_parent_witness :
    addParagraph ⟨[], []⟩ "t" "p1" (examplePara 1 "x") 42 = none :=
  (addParagraph_requires_parent ⟨[], []⟩ "t" "p1" (examplePara 1 "x") 42).1 rfl

/-- Claim C10: getProgress on a transcript id whose document does not
exist does not return a progress value or a NotFound result: it reaches
the TypeError of dereferencing the status field of the absent record. -/
theorem getProgress_missing_doc (s : Store) (id : String)
    (h : lookupTranscript s id = none) :
    getProgress s id = JsResult.typeError ∧ ∀ r, getProgress s id ≠ JsResult.ok r := by
  constructor
  · simp [getProgress, h]
  · intro r
    simp [getProgress, h]

/-- Witness for C10: the error branch is reached on the empty store. -/
theorem getProgress_missing_doc_witness :
    getProgress ⟨[], []⟩ "t1" = JsResult.typeError :=
  (getProgress_missing_doc ⟨[], []⟩ "t1" rfl).1

/-- Claim C3: deleteCollection deletes every document under the
collection path by repeatedly querying up to batchSize documents in
document-name order and committing each query result as one delete
batch, stopping on an empty query result: for every positive batchSize
the collection ends empty, and on the concrete 5-document collection
with batchSize 2 it issues exactly 3 batches of sizes 2, 2, 1 and
leaves the collection empty. -/
theorem deleteCollection_deletes_all (s : Store) (tid : String) (b : Nat) (hb : 0 < b) :
    paragraphsOf (deleteCollection s tid b).2 tid = [] ∧
    (∀ s' : Store, commitBatch s' ((querySnapshot b tid s'.paragraphs).map
          (fun d => WriteOp.deleteDoc d.1.1 d.1.2))
        = some { s' with
            paragraphs := removeSnap (querySnapshot b tid s'.paragraphs) s'.paragraphs }) ∧
    (deleteCollection exampleStore "t" 2).1 = [2, 2, 1] ∧
    paragraphsOf (deleteCollection exampleStore "t" 2).2 "t" = [] := by
  refine ⟨deleteQueryBatch_clears hb tid _ s.paragraphs le_rfl,
    fun s' => commitBatch_deleteDocs _ s', ?_,
    deleteQueryBatch_clears (by decide) "t" _ exampleStore.paragraphs le_rfl⟩
  show (deleteQueryBatch 2 "t" exampleParagraphs).1 = [2, 2, 1]
  have h1 : removeSnap (querySnapshot 2 "t" exampleParagraphs) exampleParagraphs
      = exampleRest1 := by decide
  have h2 : removeSnap (querySnapshot 2 "t" exampleRest1) exampleRest1 = exampleRest2 := by
    decide
  have h3 : removeSnap (querySnapshot 2 "t" exampleRest2) exampleRest2 = [] := by decide
  rw [deleteQueryBatch_of_nonempty _ _ _ (by decide), h1,
    deleteQueryBatch_of_nonempty _ _ _ (by decide), h2,
    deleteQueryBatch_of_nonempty _ _ _ (by decide), h3,
    deleteQueryBatch_of_empty _ _ _ (by decide)]
  decide

/-- Witness for C3 at the concrete example collection. -/
theorem deleteCollection_deletes_all_witness :
    paragraphsOf (deleteCollection exampleStore "t" 2).2 "t" = [] ∧
    (deleteCollection exampleStore "t" 2).1 = [2, 2, 1] := by
  obtain ⟨_, _, h3, h4⟩ := deleteCollection_deletes_all exampleStore "t" 2 (by decide)
  exact ⟨h4, h3⟩

/-- Claim C4: the batch-deletion loop terminates: an iteration whose
query returns a non-empty snapshot strictly decreases the number of
remaining documents in the collection, removing at most batchSize of
them when document keys are unique; an iteration whose query returns the
empty snapshot exits the loop immediately with the state unchanged, a
non-empty snapshot continues the loop, and for every positive batchSize
the loop ends with the collection empty. -/
theorem deleteQueryBatch_terminates (b : Nat) (tid : String)
    (l : List ((String × String) × IParagraph)) (hb : 0 < b) :
    (¬ querySnapshot b tid l = [] →
      ((removeSnap (querySnapshot b tid l) l).filter (fun e => decide (e.1.1 = tid))).length
        < (l.filter (fun e => decide (e.1.1 = tid))).length) ∧
    ((l.map Prod.fst).Nodup →
      (l.filter (fun e => decide (e.1.1 = tid))).length
        - ((removeSnap (querySnapshot b tid l) l).filter
            (fun e => decide (e.1.1 = tid))).length ≤ b) ∧
    (querySnapshot b tid l = [] → deleteQueryBatch b tid l = ([], l)) ∧
    (¬ querySnapshot b tid l = [] →
      deleteQueryBatch b tid l =
        ((querySnapshot b tid l).length ::
            (deleteQueryBatch b tid (removeSnap (querySnapshot b tid l) l)).1,
          (deleteQueryBatch b tid (removeSnap (querySnapshot b tid l) l)).2)) ∧
    (deleteQueryBatch b tid l).2.filter (fun e => decide (e.1.1 = tid)) = [] :=
  ⟨fun h => removeSnap_decrease h, fun h => removeSnap_count h,
    deleteQueryBatch_of_empty b tid l, deleteQueryBatch_of_nonempty b tid l,
    deleteQueryBatch_clears hb tid _ l le_rfl⟩

/-- Witness for C4 at the concrete example collection: the first
iteration strictly shrinks the collection by exactly the batch size. -/
theorem deleteQueryBatch_terminates_witness :
    ((removeSnap (querySnapshot 2 "t" exampleParagraphs) exampleParagraphs).filter
        (fun e => decide (e.1.1 = "t"))).length
      < (exampleParagraphs.filter (fun e => decide (e.1.1 = "t"))).length :=
  (deleteQueryBatch_terminates 2 "t" exampleParagraphs (by decide)).1 (by decide)

/-- Claim C5: getParagraphs returns the transcript's paragraphs ordered
by ascending startTime with ties broken by the paragraph identifier: the
query result is strictly sorted in that order, it is a permutation of
the sub-collection, the returned data is sorted by ascending startTime,
and the result is independent of insertion order (any two stores whose
sub-collections for the transcript are permutations of each other, with
unique identifiers, yield the same list). -/
theorem getParagraphs_sorted (s₁ s₂ : Store) (tid : String)
    (hperm : (paragraphsOf s₁ tid).Perm (paragraphsOf s₂ tid))
    (hids : (paragraphsOf s₁ tid).Pairwise (fun a b => a.1.2 ≠ b.1.2)) :
    getParagraphs s₁ tid = getParagraphs s₂ tid ∧
    List.Pairwise paraLt ((paragraphsOf s₁ tid).insertionSort paraLe) ∧
    List.Pairwise (fun p q : IParagraph => p.startTime ≤ q.startTime)
      (getParagraphs s₁ tid) ∧
    ((paragraphsOf s₁ tid).insertionSort paraLe).Perm (paragraphsOf s₁ tid) := by
  have hs₁ : List.Pairwise paraLe ((paragraphsOf s₁ tid).insertionSort paraLe) :=
    List.sorted_insertionSort paraLe _
  have hp₁ : ((paragraphsOf s₁ tid).insertionSort paraLe).Perm (paragraphsOf s₁ tid) :=
    List.perm_insertionSort paraLe _
  have hids₁ : ((paragraphsOf s₁ tid).insertionSort paraLe).Pairwise
      (fun a b => a.1.2 ≠ b.1.2) :=
    (hp₁.pairwise_iff (fun h => Ne.symm h)).mpr hids
  have hlt₁ : List.Pairwise paraLt ((paragraphsOf s₁ tid).insertionSort paraLe) :=
    (hs₁.and hids₁).imp (fun h => paraLt_of_paraLe_ne h.1 h.2)
  have hids₂ : (paragraphsOf s₂ tid).Pairwise (fun a b => a.1.2 ≠ b.1.2) :=
    (hperm.pairwise_iff (fun h => Ne.symm h)).mp hids
  have hs₂ : List.Pairwise paraLe ((paragraphsOf s₂ tid).insertionSort paraLe) :=
    List.sorted_insertionSort paraLe _
  have hp₂ : ((paragraphsOf s₂ tid).insertionSort paraLe).Perm (paragraphsOf s₂ tid) :=
    List.perm_insertionSort paraLe _
  have hids₂' : ((paragraphsOf s₂ tid).insertionSort paraLe).Pairwise
      (fun a b => a.1.2 ≠ b.1.2) :=
    (hp₂.pairwise_iff (fun h => Ne.symm h)).mpr hids₂
  have hlt₂ : List.Pairwise paraLt ((paragraphsOf s₂ tid).insertionSort paraLe) :=
    (hs₂.and hids₂').imp (fun h => paraLt_of_paraLe_ne h.1 h.2)
  have heq : (paragraphsOf s₁ tid).insertionSort paraLe
      = (paragraphsOf s₂ tid).insertionSort paraLe :=
    List.eq_of_perm_of_sorted ((hp₁.trans hperm).trans hp₂.symm) hlt₁ hlt₂
  refine ⟨?_, hlt₁, ?_, hp₁⟩
  · unfold getParagraphs
    rw [heq]
  · unfold getParagraphs
    rw [List.pairwise_map]
    exact hlt₁.imp (fun h => paraLt_startTime_le h)

/-- Witness for C5: two stores holding the same five paragraphs in
different insertion orders produce the same ordered query result. -/
theorem getParagraphs_sorted_witness :
    getParagraphs exampleStore "t" = getParagraphs exampleStoreShuffled "t" ∧
    getParagraphs exampleStore "t" =
      [examplePara 1 "pa", examplePara 2 "pb", examplePara 3 "pc",
        examplePara 4 "pd", examplePara 5 "pe"] := by
  obtain ⟨h1, _⟩ := getParagraphs_sorted exampleStore exampleStoreShuffled "t"
    (by decide) (by decide)
  exact ⟨h1, by decide⟩

/-- Claim C6: recordError (errorOccured) merge-writes the serialized
error record to status.error after removing every field whose value is
undefined: a field that was undefined is absent from the stored record
(not stored as null), fields with defined values are kept, and the write
does not itself change status.progress (nor any other field). -/
theorem errorOccured_strips_undefined (s : Store) (id : String)
    (e : List (String × Option String)) (hkeys : (e.map Prod.fst).Nodup) :
    ∃ t, lookupTranscript (errorOccured s id e) id = some t ∧
      t.error = some (stripUndefined e) ∧
      (∀ k v, (k, some v) ∈ e → (k, v) ∈ stripUndefined e) ∧
      (∀ k, (k, (none : Option String)) ∈ e → ¬ k ∈ (stripUndefined e).map Prod.fst) ∧
      t.progress = ((lookupTranscript s id).getD ITranscript.empty).progress ∧
      t.percent = ((lookupTranscript s id).getD ITranscript.empty).percent ∧
      t.audioDuration = ((lookupTranscript s id).getD ITranscript.empty).audioDuration ∧
      t.playbackGsUrl = ((lookupTranscript s id).getD ITranscript.empty).playbackGsUrl := by
  refine ⟨_, lookupTranscript_updateTranscript_self s id _, rfl, ?_, ?_, rfl, rfl, rfl, rfl⟩
  · intro k v hkv
    exact List.mem_filterMap.mpr ⟨(k, some v), hkv, rfl⟩
  · intro k hk hmem
    rcases List.mem_map.mp hmem with ⟨⟨k', v'⟩, hv', hk'⟩
    rcases List.mem_filterMap.mp hv' with ⟨⟨k'', ov⟩, hin, hsome⟩
    cases ov with
    | none => cases hsome
    | some w =>
      cases hsome
      have hk2 : k'' = k := hk'
      rw [hk2] at hin
      have heq := List.inj_on_of_nodup_map hkeys hk hin rfl
      cases heq

/-- Witness for C6: an error record with an undefined-valued field foo
is stored without the foo key. -/
theorem errorOccured_strips_undefined_witness :
    ∃ t, lookupTranscript (errorOccured ⟨[], []⟩ "t"
        [("message", some "boom"), ("foo", none)]) "t" = some t ∧
      t.error = some [("message", "boom")] ∧
      ¬ "foo" ∈ (stripUndefined [("message", some "boom"), ("foo", none)]).map Prod.fst := by
  obtain ⟨t, h1, h2, _, h4, _⟩ :=
    errorOccured_strips_undefined ⟨[], []⟩ "t" [("message", some "boom"), ("foo", none)]
      (by decide)
  exact ⟨t, h1, h2.trans (by decide), h4 "foo" (by decide)⟩

/-- Claim C7: deleteTranscript first deletes the whole paragraphs
sub-collection with batch size 10 and only then deletes the root
transcript document; afterwards both the sub-collection and the root
document are absent from the store. -/
theorem deleteTranscript_removes_all (s : Store) (tid : String) :
    paragraphsOf (deleteTranscript s tid) tid = [] ∧
    lookupTranscript (deleteTranscript s tid) tid = none := by
  constructor
  · exact deleteQueryBatch_clears (by decide) tid _ s.paragraphs le_rfl
  · exact assocLookup_filter_self _ tid

end Transcriber
